import Mathlib

/-!
Verification of the template-rendering service in `main.py`.

Python strings are embedded as `List Char`; Python `str` operations used by
the source (`strip`, `split('\n')`, the substring test `in`, `str.replace`)
are defined below with Python's semantics.  The regex
`^\*\*(.+?):\*\*\s*(.*)` of `parse_text_replacements` is embedded directly:
the non-greedy group `(.+?)` takes the shortest non-empty run of characters
followed by the literal `:**` (lines produced by `split('\n')` never contain
a newline, so `.` matching any-character-but-newline coincides with matching
any character), and the greedy `\s*` followed by `.strip()` of group 2
composes to a single strip of everything after the `:**` marker.
-/

/-- Python `str.isspace` / `strip` whitespace set, by code point
(9–13, 28–31, 32, 0x85, 0xA0, 0x1680, 0x2000–0x200A, 0x2028, 0x2029,
0x202F, 0x205F, 0x3000). -/
def pyIsSpace (c : Char) : Bool :=
  (9 ≤ c.toNat && c.toNat ≤ 13) || c.toNat = 32 ||
  (28 ≤ c.toNat && c.toNat ≤ 31) || c.toNat = 133 || c.toNat = 160 ||
  c.toNat = 5760 || (8192 ≤ c.toNat && c.toNat ≤ 8202) ||
  c.toNat = 8232 || c.toNat = 8233 || c.toNat = 8239 || c.toNat = 8287 ||
  c.toNat = 12288

/-- Python `str.strip()`: drop leading and trailing whitespace. -/
def pyStrip (s : List Char) : List Char :=
  ((s.dropWhile pyIsSpace).reverse.dropWhile pyIsSpace).reverse

/-- Python `text.split('\n')`: `""` yields `[""]`, a trailing newline yields a
trailing empty line. -/
def splitNl : List Char → List (List Char)
  | [] => [[]]
  | c :: rest =>
    if c = '\n' then [] :: splitNl rest
    else
      match splitNl rest with
      | [] => [[c]]
      | l :: ls => (c :: l) :: ls

/-- Python substring test `pat in s` (true for the empty pattern, also in the
empty string). -/
def containsSub (pat : List Char) : List Char → Bool
  | [] => pat.isEmpty
  | c :: rest => pat.isPrefixOf (c :: rest) || containsSub pat rest

/-- Worker for Python `s.replace(old, new)`, structurally recursive on a
fuel argument so that it evaluates inside the kernel; with fuel at least the
length of the remaining string the fuel-exhausted arm is never taken
(`pyReplaceAux_fuel`). -/
def pyReplaceAux (old new : List Char) : Nat → List Char → List Char
  | _, [] => if old.isEmpty then new else []
  | 0, c :: rest => c :: rest
  | fuel + 1, c :: rest =>
    if old.isEmpty then new ++ c :: pyReplaceAux old new fuel rest
    else if old.isPrefixOf (c :: rest) then
      new ++ pyReplaceAux old new fuel ((c :: rest).drop old.length)
    else c :: pyReplaceAux old new fuel rest

/-- Python `s.replace(old, new)`: left-to-right, non-overlapping replacement
of every occurrence; an empty `old` inserts `new` at every position,
including both ends (`"ab".replace("", "-") = "-a-b-"`). -/
def pyReplace (old new s : List Char) : List Char :=
  pyReplaceAux old new s.length s

/-- Shorthand: the character list of a string literal. -/
def strL (s : String) : List Char := s.data

/-- The literal `:**` that terminates a key in the annotation syntax. -/
def marker : List Char := [':', '*', '*']

/-- First occurrence search for the `:**` marker: on success returns the
characters before the marker and the characters after it. -/
def findMarker : List Char → Option (List Char × List Char)
  | [] => none
  | c :: rest =>
    if marker.isPrefixOf (c :: rest) then some ([], (c :: rest).drop 3)
    else
      match findMarker rest with
      | none => none
      | some (pre, post) => some (c :: pre, post)

/-- The non-greedy group `(.+?)` followed by `:\*\*`: the shortest non-empty
prefix of `mid` that is followed by the literal `:**`; returns that raw key
together with the remainder of the line after the marker. -/
def splitAtMarker : List Char → Option (List Char × List Char)
  | [] => none
  | c :: rest =>
    match findMarker rest with
    | none => none
    | some (pre, post) => some (c :: pre, post)

/-- Embeds `re.search(r'^\*\*(.+?):\*\*\s*(.*)', line)` followed by
`match.group(1).strip()` and `match.group(2).strip()` (the greedy `\s*` and
the strip of group 2 compose to one strip of everything after `:**`). -/
def matchLine (line : List Char) : Option (List Char × List Char) :=
  if (strL "**").isPrefixOf line then
    match splitAtMarker (line.drop 2) with
    | none => none
    | some kv => some (pyStrip kv.1, pyStrip kv.2)
  else none

/-- The fixed exclusion set `ignored_keys` of `parse_text_replacements`. -/
def ignored_keys : List (List Char) :=
  [strL "SPAN", strL "DIV", strL "P", strL "H1", strL "H2", strL "H3",
   strL "H4", strL "H5", strL "H6", strL "A", strL "IMG", strL "UL",
   strL "LI", strL "SECTION", strL "HEADER", strL "FOOTER", strL "BODY",
   strL "HTML", strL "SCRIPT", strL "STYLE", strL "BR", strL "HR"]

/-- A Python `dict[str, str]` in insertion order. -/
abbrev RepMap := List (List Char × List Char)

/-- Python `replacements[key] = value` on an insertion-ordered dict: an
existing key keeps its position and gets the new value, a new key is
appended. -/
def insertRep (m : RepMap) (k v : List Char) : RepMap :=
  if m.any (fun p => p.1 == k) then
    m.map (fun p => if p.1 == k then (k, v) else p)
  else m ++ [(k, v)]

/-- Python `d[k]` lookup (first entry with the key). -/
def lookupRep : RepMap → List Char → Option (List Char)
  | [], _ => none
  | (k, v) :: rest, key => if k == key then some v else lookupRep rest key

/-- The loop body of `parse_text_replacements` for one line: strip, match the
pattern, drop excluded keys, insert the entry. -/
def processLine (reps : RepMap) (line : List Char) : RepMap :=
  match matchLine (pyStrip line) with
  | none => reps
  | some kv => if ignored_keys.contains kv.1 then reps else insertRep reps kv.1 kv.2

/-- Embeds `parse_text_replacements` (main.py, lines 119–135). -/
def parse_text_replacements (text : List Char) : RepMap :=
  (splitNl text).foldl processLine []

/-- The substitution loop of `generate_html` (main.py, lines 197–201):
state is the current body and the counter. -/
def renderLoop : RepMap → List Char → Nat → List Char × Nat
  | [], body, cnt => (body, cnt)
  | (k, v) :: rest, body, cnt =>
    if containsSub k body then renderLoop rest (pyReplace k v body) (cnt + 1)
    else renderLoop rest body cnt

/-- The renderer applied to an already-built mapping. -/
def renderTemplate (m : RepMap) (body : List Char) : List Char × Nat :=
  renderLoop m body 0

/-- Embeds `generate_html` (main.py, lines 192–206): returns the generated body and
`replacements_count`. -/
def generate_html (template_content input_text : List Char) : List Char × Nat :=
  renderTemplate (parse_text_replacements input_text) template_content

/-! ### Properties of the Python string primitives -/

theorem pyReplaceAux_fuel (old new : List Char) :
    ∀ f f' s, s.length ≤ f → s.length ≤ f' →
      pyReplaceAux old new f s = pyReplaceAux old new f' s := by
  intro f
  induction f with
  | zero =>
    intro f' s hf hf'
    have hs : s = [] := List.length_eq_zero.mp (Nat.le_zero.mp hf)
    subst hs
    cases f' <;> rfl
  | succ g ih =>
    intro f' s hf hf'
    cases s with
    | nil => cases f' <;> rfl
    | cons c rest =>
      cases f' with
      | zero => simp at hf'
      | succ g' =>
        have hr : rest.length ≤ g := by simp at hf; omega
        have hr' : rest.length ≤ g' := by simp at hf'; omega
        show (if old.isEmpty then new ++ c :: pyReplaceAux old new g rest
            else if old.isPrefixOf (c :: rest) then
              new ++ pyReplaceAux old new g ((c :: rest).drop old.length)
            else c :: pyReplaceAux old new g rest) =
          (if old.isEmpty then new ++ c :: pyReplaceAux old new g' rest
            else if old.isPrefixOf (c :: rest) then
              new ++ pyReplaceAux old new g' ((c :: rest).drop old.length)
            else c :: pyReplaceAux old new g' rest)
        by_cases hE : old.isEmpty = true
        · rw [if_pos hE, if_pos hE, ih g' rest hr hr']
        · rw [if_neg hE, if_neg hE]
          by_cases hP : old.isPrefixOf (c :: rest) = true
          · rw [if_pos hP, if_pos hP]
            have hk : 0 < old.length := by
              cases old with
              | nil => simp at hE
              | cons a l => simp
            have hd : ((c :: rest).drop old.length).length ≤ rest.length := by
              simp [List.length_drop]
              omega
            rw [ih g' _ (le_trans hd hr) (le_trans hd hr')]
          · rw [if_neg hP, if_neg hP, ih g' rest hr hr']

theorem pyReplace_nil (old new : List Char) :
    pyReplace old new [] = if old.isEmpty then new else [] := rfl

theorem pyReplace_cons (old new : List Char) (c : Char) (rest : List Char) :
    pyReplace old new (c :: rest) =
      if old.isEmpty then new ++ c :: pyReplace old new rest
      else if old.isPrefixOf (c :: rest) then
        new ++ pyReplace old new ((c :: rest).drop old.length)
      else c :: pyReplace old new rest := by
  have base : pyReplace old new (c :: rest) =
      if old.isEmpty then new ++ c :: pyReplaceAux old new rest.length rest
      else if old.isPrefixOf (c :: rest) then
        new ++ pyReplaceAux old new rest.length ((c :: rest).drop old.length)
      else c :: pyReplaceAux old new rest.length rest := rfl
  rw [base]
  by_cases hE : old.isEmpty = true
  · rw [if_pos hE, if_pos hE]
    rfl
  · rw [if_neg hE, if_neg hE]
    by_cases hP : old.isPrefixOf (c :: rest) = true
    · rw [if_pos hP, if_pos hP]
      have hk : 0 < old.length := by
        cases old with
        | nil => simp at hE
        | cons a l => simp
      have hd : ((c :: rest).drop old.length).length ≤ rest.length := by
        simp [List.length_drop]
        omega
      have := pyReplaceAux_fuel old new rest.length
        ((c :: rest).drop old.length).length ((c :: rest).drop old.length)
        hd le_rfl
      rw [this]
      rfl
    · rw [if_neg hP, if_neg hP]
      rfl

theorem containsSub_nil_pat (s : List Char) : containsSub [] s = true := by
  cases s <;> simp [containsSub, List.isPrefixOf]

theorem pyReplace_of_not_contains (k v s : List Char)
    (h : containsSub k s = false) : pyReplace k v s = s := by
  induction s with
  | nil =>
    simp [containsSub] at h
    rw [pyReplace_nil, if_neg]
    simp [h]
  | cons c rest ih =>
    have h1 : k.isPrefixOf (c :: rest) = false := by
      cases hp : k.isPrefixOf (c :: rest) with
      | false => rfl
      | true => simp [containsSub, hp] at h
    have h2 : containsSub k rest = false := by
      cases hc : containsSub k rest with
      | false => rfl
      | true => simp [containsSub, hc] at h
    have hE : k.isEmpty = false := by
      cases k with
      | nil => simp [List.isPrefixOf] at h1
      | cons a l => rfl
    rw [pyReplace_cons, if_neg, if_neg, ih h2]
    · simp [h1]
    · simp [hE]

theorem pyReplace_append_self (k v t : List Char) (hk : k ≠ []) :
    pyReplace k v (k ++ t) = v ++ pyReplace k v t := by
  cases k with
  | nil => exact absurd rfl hk
  | cons c k' =>
    have hcons : (c :: k') ++ t = c :: (k' ++ t) := rfl
    have hE : (c :: k').isEmpty = false := rfl
    have hP : (c :: k').isPrefixOf (c :: (k' ++ t)) = true :=
      List.isPrefixOf_iff_prefix.mpr (List.prefix_append (c :: k') t)
    have hd : (c :: (k' ++ t)).drop (c :: k').length = t :=
      List.drop_left (c :: k') t
    rw [hcons, pyReplace_cons, if_neg, if_pos hP, hd]
    simp [hE]

theorem ne_true_of_false {b : Bool} (h : b = false) : ¬ b = true := by
  intro hc
  rw [h] at hc
  exact Bool.noConfusion hc

theorem isPrefixOf_eq_append {l₁ l₂ : List Char}
    (h : l₁.isPrefixOf l₂ = true) : l₂ = l₁ ++ l₂.drop l₁.length := by
  obtain ⟨t, ht⟩ := List.isPrefixOf_iff_prefix.mp h
  rw [← ht, List.drop_left]

theorem findMarker_sound : ∀ s pre post,
    findMarker s = some (pre, post) → s = pre ++ marker ++ post := by
  intro s
  induction s with
  | nil => intro pre post h; simp [findMarker] at h
  | cons c rest ih =>
    intro pre post h
    by_cases hp : marker.isPrefixOf (c :: rest) = true
    · simp only [findMarker, if_pos hp] at h
      simp only [Option.some.injEq, Prod.mk.injEq] at h
      obtain ⟨h1, h2⟩ := h
      subst h1 h2
      simpa using isPrefixOf_eq_append hp
    · simp only [findMarker, if_neg hp] at h
      cases hm : findMarker rest with
      | none => rw [hm] at h; simp at h
      | some pq =>
        obtain ⟨p, q⟩ := pq
        rw [hm] at h
        simp only [Option.some.injEq, Prod.mk.injEq] at h
        obtain ⟨hpre, hpost⟩ := h
        subst hpre hpost
        simpa using ih p q hm

theorem findMarker_of_isPrefixOf : ∀ s, marker.isPrefixOf s = true →
    (findMarker s).isSome := by
  intro s h
  cases s with
  | nil => simp [marker, List.isPrefixOf] at h
  | cons c rest => simp [findMarker, h]

theorem findMarker_complete : ∀ pre post s,
    s = pre ++ marker ++ post → (findMarker s).isSome := by
  intro pre
  induction pre with
  | nil =>
    intro post s hs
    subst hs
    apply findMarker_of_isPrefixOf
    exact List.isPrefixOf_iff_prefix.mpr
      (by rw [List.nil_append]; exact List.prefix_append marker post)
  | cons c pre' ih =>
    intro post s hs
    subst hs
    simp only [List.cons_append]
    by_cases hp : marker.isPrefixOf (c :: (pre' ++ marker ++ post)) = true
    · exact findMarker_of_isPrefixOf _ hp
    · have hrec := ih post (pre' ++ marker ++ post) rfl
      simp only [findMarker, if_neg hp]
      cases hm : findMarker (pre' ++ marker ++ post) with
      | none => rw [hm] at hrec; simp at hrec
      | some pq => obtain ⟨p, q⟩ := pq; simp

theorem splitAtMarker_sound : ∀ mid k r, splitAtMarker mid = some (k, r) →
    mid = k ++ marker ++ r ∧ k ≠ [] := by
  intro mid k r h
  cases mid with
  | nil => simp [splitAtMarker] at h
  | cons c rest =>
    simp only [splitAtMarker] at h
    cases hm : findMarker rest with
    | none => rw [hm] at h; simp at h
    | some pq =>
      obtain ⟨pre, post⟩ := pq
      rw [hm] at h
      simp only [Option.some.injEq, Prod.mk.injEq] at h
      obtain ⟨hk, hr⟩ := h
      subst hk hr
      refine ⟨?_, by simp⟩
      have := findMarker_sound rest pre post hm
      simp [this]

theorem splitAtMarker_complete : ∀ k r mid,
    mid = k ++ marker ++ r → k ≠ [] → (splitAtMarker mid).isSome := by
  intro k r mid hm hk
  cases k with
  | nil => exact absurd rfl hk
  | cons c k' =>
    subst hm
    simp only [List.cons_append, splitAtMarker]
    have hrec := findMarker_complete k' r (k' ++ marker ++ r) rfl
    cases hg : findMarker (k' ++ marker ++ r) with
    | none => rw [hg] at hrec; simp at hrec
    | some pq => obtain ⟨p, q⟩ := pq; simp

theorem matchLine_sound : ∀ line k v, matchLine line = some (k, v) →
    ∃ k₀ r, line = strL "**" ++ k₀ ++ marker ++ r ∧ k₀ ≠ [] ∧
      k = pyStrip k₀ ∧ v = pyStrip r := by
  intro line k v h
  by_cases hp : (strL "**").isPrefixOf line = true
  · simp only [matchLine, if_pos hp] at h
    cases hs : splitAtMarker (line.drop 2) with
    | none => rw [hs] at h; simp at h
    | some kv₀ =>
      obtain ⟨k₀, r⟩ := kv₀
      rw [hs] at h
      simp only [Option.some.injEq, Prod.mk.injEq] at h
      obtain ⟨hk, hv⟩ := h
      obtain ⟨hdec, hne⟩ := splitAtMarker_sound _ _ _ hs
      refine ⟨k₀, r, ?_, hne, hk.symm, hv.symm⟩
      have hline := isPrefixOf_eq_append hp
      have hlen2 : (strL "**").length = 2 := rfl
      rw [hlen2] at hline
      rw [hline, hdec]
      simp
  · simp [matchLine, hp] at h

/-! ### Claim theorems: renderer -/

/-- C1: the renderer iterates the mapping entries in insertion order and, for
each entry whose key occurs as a literal substring of the current body,
replaces every occurrence of that key (keys without an occurrence leave the
body unchanged; an occurring key is rewritten occurrence by occurrence,
left to right) and increments the substitution counter by exactly one per
applied key, not per occurrence: `{"NAME": "Alice"}` on `"Hi NAME, NAME!"`
yields `"Hi Alice, Alice!"` with counter `1`. -/
theorem renderer_counts_keys_not_occurrences :
    (∀ k v (m : RepMap) (body : List Char) (cnt : Nat),
        renderLoop ((k, v) :: m) body cnt =
          if containsSub k body then renderLoop m (pyReplace k v body) (cnt + 1)
          else renderLoop m body cnt)
    ∧ (∀ k v s, containsSub k s = false → pyReplace k v s = s)
    ∧ (∀ k v t, k ≠ [] → pyReplace k v (k ++ t) = v ++ pyReplace k v t)
    ∧ renderTemplate [(strL "NAME", strL "Alice")] (strL "Hi NAME, NAME!")
        = (strL "Hi Alice, Alice!", 1) :=
  ⟨fun _ _ _ _ _ => rfl, pyReplace_of_not_contains, pyReplace_append_self,
   by decide⟩

/-- Witness for C1 at concrete inputs: an absent key changes nothing, and a
leading occurrence of a key is replaced. -/
theorem renderer_counts_keys_not_occurrences_app :
    pyReplace (strL "X") (strL "y") (strL "abc") = strL "abc"
    ∧ pyReplace (strL "X") (strL "y") (strL "X" ++ strL "ab")
        = strL "y" ++ pyReplace (strL "X") (strL "y") (strL "ab") :=
  ⟨renderer_counts_keys_not_occurrences.2.1 (strL "X") (strL "y") (strL "abc")
      (by decide),
   renderer_counts_keys_not_occurrences.2.2.1 (strL "X") (strL "y")
      (strL "ab") (by decide)⟩

/-- C4: substitution is sequential over the mutated body: entries later in
the mapping are applied to the body already rewritten by earlier entries,
and `A → B` then `B → C` applied to `"A"` renders `"C"`. -/
theorem renderer_sequential_chaining :
    (∀ (m₁ m₂ : RepMap) (body : List Char) (cnt : Nat),
        renderLoop (m₁ ++ m₂) body cnt =
          renderLoop m₂ (renderLoop m₁ body cnt).1 (renderLoop m₁ body cnt).2)
    ∧ (renderTemplate [(strL "A", strL "B"), (strL "B", strL "C")]
        (strL "A")).1 = strL "C" := by
  constructor
  · intro m₁
    induction m₁ with
    | nil => intro m₂ body cnt; rfl
    | cons kv rest ih =>
      intro m₂ body cnt
      obtain ⟨k, v⟩ := kv
      by_cases h : containsSub k body = true
      · simp [renderLoop, h, ih]
      · simp [renderLoop, h, ih]
  · decide

/-- C10: a line whose raw key is non-empty whitespace, such as `"** :** v"`,
yields the empty string as a mapping key; the empty key is a substring of
every body (the empty body included), so rendering counts it and inserts its
value at both ends of the body and between every pair of adjacent
characters. -/
theorem empty_key_extraction_and_replacement :
    parse_text_replacements (strL "** :** v") = [([], strL "v")]
    ∧ (∀ body, containsSub [] body = true)
    ∧ (∀ v, pyReplace [] v [] = v)
    ∧ (∀ v c rest, pyReplace [] v (c :: rest) = v ++ c :: pyReplace [] v rest)
    ∧ generate_html (strL "ab") (strL "** :** v") = (strL "vavbv", 1)
    ∧ generate_html [] (strL "** :** v") = (strL "v", 1) := by
  refine ⟨by decide, containsSub_nil_pat, fun v => rfl, fun v c rest => ?_,
    by decide, by decide⟩
  rw [pyReplace_cons, if_pos]
  rfl

/-! ### Claim theorems: extractor -/

/-- C2 counterexample: on the line `"** a :** v"` the text between the
opening `**` and the literal `:**` is `" a "`, yet the extracted mapping is
`[("a", "v")]` — the key is the trimmed text, not the raw text between the
markers. -/
theorem extractor_key_is_trimmed_cex :
    parse_text_replacements (strL "** a :** v") = [(strL "a", strL "v")]
    ∧ parse_text_replacements (strL "** a :** v") ≠ [(strL " a ", strL "v")] := by
  constructor
  · decide
  · decide

/-- C2 (amended): extraction splits the input into lines and strips each
line; a line produces an entry exactly when, after an opening `**`, the
literal `:**` occurs preceded by at least one character; the key is the text
between the opening `**` and that `:**`, trimmed; the value is the remainder
of the line after the marker, trimmed (an empty value yields the empty
string); other lines are ignored without error. -/
theorem extractor_line_pattern :
    (∀ text, parse_text_replacements text = (splitNl text).foldl processLine [])
    ∧ (∀ mid, (splitAtMarker mid).isSome ↔
        ∃ k r, mid = k ++ marker ++ r ∧ k ≠ [])
    ∧ (∀ line k v, matchLine line = some (k, v) →
        ∃ k₀ r, line = strL "**" ++ k₀ ++ marker ++ r ∧ k₀ ≠ [] ∧
          k = pyStrip k₀ ∧ v = pyStrip r)
    ∧ (∀ reps line, matchLine (pyStrip line) = none →
        processLine reps line = reps)
    ∧ parse_text_replacements (strL "no marker here") = []
    ∧ parse_text_replacements (strL "**K:**") = [(strL "K", [])] := by
  refine ⟨fun _ => rfl, ?_, matchLine_sound, ?_, by decide, by decide⟩
  · intro mid
    constructor
    · intro h
      cases hs : splitAtMarker mid with
      | none => rw [hs] at h; simp at h
      | some kr =>
        obtain ⟨k, r⟩ := kr
        obtain ⟨hdec, hne⟩ := splitAtMarker_sound _ _ _ hs
        exact ⟨k, r, hdec, hne⟩
    · rintro ⟨k, r, hdec, hne⟩
      exact splitAtMarker_complete k r mid hdec hne
  · intro reps line h
    unfold processLine
    rw [h]

/-- Witness for C2 (amended) at concrete inputs: the matched line
`"**K:** v"` decomposes around the `:**` marker, and a marker-free line is
ignored. -/
theorem extractor_line_pattern_app :
    (∃ k₀ r, strL "**K:** v" = strL "**" ++ k₀ ++ marker ++ r ∧ k₀ ≠ [] ∧
      strL "K" = pyStrip k₀ ∧ strL "v" = pyStrip r)
    ∧ processLine [] (strL "plain") = [] :=
  ⟨extractor_line_pattern.2.2.1 (strL "**K:** v") (strL "K") (strL "v")
      (by decide),
   extractor_line_pattern.2.2.2.1 [] (strL "plain") (by decide)⟩

/-- C3: a matched line whose key lies in the fixed, case-sensitively
compared exclusion set contributes no mapping entry, and keys outside the
set are kept: `**Title:** Hello World` yields `Title → "Hello World"`,
`**DIV:** ignored` yields no entry, and the lowercase `**div:** x` is
kept. -/
theorem extractor_exclusion_set :
    (∀ reps line k v, matchLine (pyStrip line) = some (k, v) →
        ignored_keys.contains k = true → processLine reps line = reps)
    ∧ (∀ reps line k v, matchLine (pyStrip line) = some (k, v) →
        ignored_keys.contains k = false →
        processLine reps line = insertRep reps k v)
    ∧ parse_text_replacements (strL "**Title:** Hello World")
        = [(strL "Title", strL "Hello World")]
    ∧ parse_text_replacements (strL "**DIV:** ignored") = []
    ∧ parse_text_replacements (strL "**div:** x")
        = [(strL "div", strL "x")] := by
  refine ⟨?_, ?_, by decide, by decide, by decide⟩
  · intro reps line k v hm hig
    unfold processLine
    rw [hm]
    show (if ignored_keys.contains k = true then reps
        else insertRep reps k v) = reps
    rw [if_pos hig]
  · intro reps line k v hm hig
    unfold processLine
    rw [hm]
    show (if ignored_keys.contains k = true then reps
        else insertRep reps k v) = insertRep reps k v
    rw [if_neg (ne_true_of_false hig)]

/-- Witness for C3 at concrete inputs: the excluded key `DIV` is dropped
and the key `Title` is inserted. -/
theorem extractor_exclusion_set_app :
    processLine [] (strL "**DIV:** ignored") = []
    ∧ processLine [] (strL "**Title:** Hello World")
        = insertRep [] (strL "Title") (strL "Hello World") :=
  ⟨extractor_exclusion_set.1 [] (strL "**DIV:** ignored") (strL "DIV")
      (strL "ignored") (by decide) (by decide),
   extractor_exclusion_set.2.1 [] (strL "**Title:** Hello World")
      (strL "Title") (strL "Hello World") (by decide) (by decide)⟩

theorem lookupRep_map_set : ∀ (m : RepMap) (k v : List Char),
    m.any (fun p => p.1 == k) = true →
    lookupRep (m.map (fun p => if p.1 == k then (k, v) else p)) k = some v := by
  intro m k v
  induction m with
  | nil => intro h; simp at h
  | cons p m' ih =>
    intro h
    obtain ⟨a, b⟩ := p
    by_cases hp : (a == k) = true
    · have ha : a = k := by simpa using hp
      subst ha
      simp only [List.map_cons]
      rw [if_pos hp]
      simp only [lookupRep]
      rw [if_pos hp]
    · have h2 : (m'.any fun p => p.1 == k) = true := by
        rw [List.any_cons] at h
        simp only [Bool.or_eq_true] at h
        rcases h with h | h
        · exact absurd h hp
        · exact h
      simp only [List.map_cons]
      rw [if_neg hp]
      simp only [lookupRep]
      rw [if_neg hp]
      exact ih h2

theorem lookupRep_append_new : ∀ (m : RepMap) (k v : List Char),
    m.any (fun p => p.1 == k) = false →
    lookupRep (m ++ [(k, v)]) k = some v := by
  intro m k v
  induction m with
  | nil => intro h; simp [lookupRep]
  | cons p m' ih =>
    intro h
    obtain ⟨a, b⟩ := p
    have hp : (a == k) = false := by
      cases hb : (a == k) with
      | false => rfl
      | true => rw [List.any_cons] at h; simp [hb] at h
    have h2 : (m'.any fun p => p.1 == k) = false := by
      rw [List.any_cons] at h
      simpa [hp] using h
    simp only [List.cons_append, lookupRep]
    rw [if_neg (by simp [hp])]
    exact ih h2

/-- C5: key order in the extracted mapping follows first occurrence: an
insert of an existing key rewrites its value in place (the key sequence is
unchanged), an insert of a new key appends it, and after an insert the key
maps to the new value; input `X, Y, X` keeps `X` in first position with the
last value. -/
theorem extractor_insertion_order_last_wins :
    (∀ (m : RepMap) (k v : List Char), m.any (fun p => p.1 == k) = true →
        (insertRep m k v).map Prod.fst = m.map Prod.fst)
    ∧ (∀ (m : RepMap) (k v : List Char), m.any (fun p => p.1 == k) = false →
        insertRep m k v = m ++ [(k, v)])
    ∧ (∀ (m : RepMap) (k v : List Char),
        lookupRep (insertRep m k v) k = some v)
    ∧ parse_text_replacements (strL "**X:** 1\n**Y:** 2\n**X:** 3")
        = [(strL "X", strL "3"), (strL "Y", strL "2")] := by
  refine ⟨?_, ?_, ?_, by decide⟩
  · intro m k v h
    rw [insertRep, if_pos h, List.map_map]
    apply List.map_congr_left
    intro p _
    obtain ⟨a, b⟩ := p
    by_cases hp : (a == k) = true
    · have ha : a = k := by simpa using hp
      subst ha
      simp [Function.comp]
    · simp [Function.comp, hp]
  · intro m k v h
    rw [insertRep, if_neg (by simp [h])]
  · intro m k v
    cases hAny : (m.any fun p => p.1 == k) with
    | true =>
      rw [insertRep, if_pos hAny]
      exact lookupRep_map_set m k v hAny
    | false =>
      rw [insertRep, if_neg (by simp [hAny])]
      exact lookupRep_append_new m k v hAny

/-- Witness for C5 at concrete inputs: re-inserting `X` keeps the key order,
inserting the fresh `Y` appends it. -/
theorem extractor_insertion_order_last_wins_app :
    (insertRep [(strL "X", strL "1"), (strL "Y", strL "2")]
        (strL "X") (strL "3")).map Prod.fst
      = [(strL "X", strL "1"), (strL "Y", strL "2")].map Prod.fst
    ∧ insertRep [(strL "X", strL "1")] (strL "Y") (strL "2")
      = [(strL "X", strL "1")] ++ [(strL "Y", strL "2")] :=
  ⟨extractor_insertion_order_last_wins.1
      [(strL "X", strL "1"), (strL "Y", strL "2")] (strL "X") (strL "3")
      (by decide),
   extractor_insertion_order_last_wins.2.1 [(strL "X", strL "1")]
      (strL "Y") (strL "2") (by decide)⟩

/-! ### Authentication model (main.py, lines 22–28, 92–117, 139–152)

The JWT primitive (`jwt.encode` / `jwt.decode` of python-jose) is the
external signing/verification collaborator of the service; it is modelled
by a token datatype carrying the payload and the signing key. -/

/-- Access-token payload: the claims this service uses (`sub`, and `exp` in
seconds since the epoch). -/
structure JwtPayload where
  sub : Option String
  exp : Option Nat
deriving DecidableEq

/-- A bearer token as presented to the guard: either not a well-formed
signed token, or a payload signed with a key. -/
inductive JWToken where
  | malformed : JWToken
  | signed : JwtPayload → String → JWToken
deriving DecidableEq

/-- Modelled external primitive
`jwt.decode(token, SECRET_KEY, algorithms=[ALGORITHM])`: raises `JWTError`
when the token is malformed or the signature key does not match, raises
`ExpiredSignatureError` (a `JWTError`) when the `exp` claim lies in the past
(`exp < now`), and otherwise returns the payload. -/
def jwt_decode (secret : String) (now : Nat) : JWToken → Except Unit JwtPayload
  | .malformed => .error ()
  | .signed p k =>
    if k ≠ secret then .error ()
    else
      match p.exp with
      | some e => if e < now then .error () else .ok p
      | none => .ok p

/-- Embeds `get_current_user` (main.py, lines 102–117); `Except Unit` stands for
the 401 Unauthorized `credentials_exception`. -/
def get_current_user (secret admin : String) (now : Nat) (tok : JWToken) :
    Except Unit String :=
  match jwt_decode secret now tok with
  | .error _ => .error ()
  | .ok payload =>
    match payload.sub with
    | none => .error ()
    | some username => if username ≠ admin then .error () else .ok username

/-- Embeds `ACCESS_TOKEN_EXPIRE_MINUTES = 60 * 24` (main.py, line 24). -/
def ACCESS_TOKEN_EXPIRE_MINUTES : Nat := 60 * 24

/-- Embeds `create_access_token` (main.py, lines 92–100): the only caller passes
`data = {"sub": username}`, modelled as the `sub` claim; `expires_delta` is
in seconds; without it the expiry defaults to 15 minutes. -/
def create_access_token (secret : String) (now : Nat) (sub : Option String)
    (expires_delta : Option Nat) : JWToken :=
  let expire :=
    match expires_delta with
    | some d => now + d
    | none => now + 15 * 60
  .signed { sub := sub, exp := some expire } secret

/-- Embeds `login_for_access_token` (main.py, lines 139–152): one comparison of the
submitted pair against the configured pair; both mismatch kinds raise the
same 401 Unauthorized condition. -/
def login_for_access_token (admin password secret : String) (now : Nat)
    (username pw : String) : Except Unit JWToken :=
  if username ≠ admin ∨ pw ≠ password then .error ()
  else .ok (create_access_token secret now (some username)
      (some (ACCESS_TOKEN_EXPIRE_MINUTES * 60)))

/-- Follows the spec's words for the Access Token Guard failure cases: the
token is malformed, the signature is invalid, the token has expired, the
subject claim is absent, or the subject differs from the configured
administrator identity. -/
def guardRejects (secret admin : String) (now : Nat) : JWToken → Prop
  | .malformed => True
  | .signed p k =>
    k ≠ secret ∨ (∃ e, p.exp = some e ∧ e < now) ∨ p.sub = none ∨
      (∃ u, p.sub = some u ∧ u ≠ admin)

/-! ### Template store model (main.py, lines 42–46, 154–190) -/

/-- A row of the `templates` table. -/
structure TemplateRec where
  id : String
  name : String
  content : String
deriving DecidableEq

/-- The point lookup
`db.query(TemplateDB).filter(TemplateDB.id == template_id).first()`:
first row whose identifier matches. -/
def findTemplate (db : List TemplateRec) (tid : String) : Option TemplateRec :=
  match db with
  | [] => none
  | r :: rest => if r.id == tid then some r else findTemplate rest tid

/-- Embeds `create_template` (main.py, lines 158–168): the fresh uuid is passed in
as `newId`; the new row is appended in store order and returned. -/
def create_template (db : List TemplateRec) (newId name content : String) :
    List TemplateRec × TemplateRec :=
  (db ++ [⟨newId, name, content⟩], ⟨newId, name, content⟩)

/-- In-place mutation of the first row matching the identifier, as the ORM
update performs it; the identifier field is untouched. -/
def updateFirst (tid name content : String) :
    List TemplateRec → List TemplateRec
  | [] => []
  | r :: rest =>
    if r.id == tid then { r with name := name, content := content } :: rest
    else r :: updateFirst tid name content rest

/-- Embeds `update_template` (main.py, lines 170–180): 404 when the lookup fails,
otherwise the mutable fields are replaced and the refreshed row returned.
The pair is the store after the call and the response. -/
def update_template (db : List TemplateRec) (tid name content : String) :
    List TemplateRec × Except Unit TemplateRec :=
  match findTemplate db tid with
  | none => (db, .error ())
  | some r => (updateFirst tid name content db,
      .ok { r with name := name, content := content })

/-- Removal of the first row matching the identifier. -/
def deleteFirst (tid : String) : List TemplateRec → List TemplateRec
  | [] => []
  | r :: rest => if r.id == tid then rest else r :: deleteFirst tid rest

/-- Embeds `delete_template` (main.py, lines 182–190): 404 when the lookup fails,
otherwise the row is removed and the confirmation message `"Template
deleted"` — not the record — is returned. -/
def delete_template (db : List TemplateRec) (tid : String) :
    List TemplateRec × Except Unit String :=
  match findTemplate db tid with
  | none => (db, .error ())
  | some _ => (deleteFirst tid db, .ok "Template deleted")

/-! ### Claim theorems: authentication -/

/-- C6: the guard fails with Unauthorized exactly when the token is
malformed, its signature key is wrong, it has expired, the subject claim is
absent, or the subject differs from the configured administrator; on success
it returns the subject, which is the administrator identity; a token with
subject = admin is accepted before its expiry and rejected after it, and a
token with any other subject is always rejected. -/
theorem guard_accepts_only_admin_token :
    (∀ secret admin now tok,
        get_current_user secret admin now tok = .error () ↔
          guardRejects secret admin now tok)
    ∧ (∀ secret admin now tok u,
        get_current_user secret admin now tok = .ok u → u = admin)
    ∧ (∀ secret admin e now, now < e →
        get_current_user secret admin now
          (.signed ⟨some admin, some e⟩ secret) = .ok admin)
    ∧ (∀ secret admin e now, e < now →
        get_current_user secret admin now
          (.signed ⟨some admin, some e⟩ secret) = .error ())
    ∧ (∀ secret admin now u e, u ≠ admin →
        get_current_user secret admin now
          (.signed ⟨some u, some e⟩ secret) = .error ()) := by
  refine ⟨?_, ?_, ?_, ?_, ?_⟩
  · intro secret admin now tok
    cases tok with
    | malformed => simp [get_current_user, jwt_decode, guardRejects]
    | signed p k =>
      obtain ⟨ps, pe⟩ := p
      by_cases hk : k = secret
      · subst hk
        cases pe with
        | some e =>
          by_cases he : e < now
          · simp [get_current_user, jwt_decode, guardRejects, he]
          · cases ps with
            | none => simp [get_current_user, jwt_decode, guardRejects, he]
            | some w =>
              by_cases hw : w = admin
              · subst hw
                simp [get_current_user, jwt_decode, guardRejects, he]
              · simp [get_current_user, jwt_decode, guardRejects, he, hw]
        | none =>
          cases ps with
          | none => simp [get_current_user, jwt_decode, guardRejects]
          | some w =>
            by_cases hw : w = admin
            · subst hw
              simp [get_current_user, jwt_decode, guardRejects]
            · simp [get_current_user, jwt_decode, guardRejects, hw]
      · simp [get_current_user, jwt_decode, guardRejects, hk]
  · intro secret admin now tok u h
    cases tok with
    | malformed => simp [get_current_user, jwt_decode] at h
    | signed p k =>
      obtain ⟨ps, pe⟩ := p
      by_cases hk : k = secret
      · subst hk
        cases pe with
        | some e =>
          by_cases he : e < now
          · simp [get_current_user, jwt_decode, he] at h
          · cases ps with
            | none => simp [get_current_user, jwt_decode, he] at h
            | some w =>
              by_cases hw : w = admin
              · subst hw
                simp [get_current_user, jwt_decode, he] at h
                exact h.symm
              · simp [get_current_user, jwt_decode, he, hw] at h
        | none =>
          cases ps with
          | none => simp [get_current_user, jwt_decode] at h
          | some w =>
            by_cases hw : w = admin
            · subst hw
              simp [get_current_user, jwt_decode] at h
              exact h.symm
            · simp [get_current_user, jwt_decode, hw] at h
      · simp [get_current_user, jwt_decode, hk] at h
  · intro secret admin e now h
    have hne : ¬ e < now := by omega
    simp [get_current_user, jwt_decode, hne]
  · intro secret admin e now h
    simp [get_current_user, jwt_decode, h]
  · intro secret admin now u e hu
    by_cases he : e < now
    · simp [get_current_user, jwt_decode, he]
    · simp [get_current_user, jwt_decode, he, hu]

/-- Witness for C6 at concrete inputs: the admin-subject token is accepted
before expiry and rejected after it, and a non-admin subject is rejected. -/
theorem guard_accepts_only_admin_token_app :
    get_current_user "k" "admin" 5
        (.signed ⟨some "admin", some 10⟩ "k") = .ok "admin"
    ∧ get_current_user "k" "admin" 20
        (.signed ⟨some "admin", some 10⟩ "k") = .error ()
    ∧ get_current_user "k" "admin" 5
        (.signed ⟨some "bob", some 10⟩ "k") = .error () :=
  ⟨guard_accepts_only_admin_token.2.2.1 "k" "admin" 10 5 (by omega),
   guard_accepts_only_admin_token.2.2.2.1 "k" "admin" 10 20 (by omega),
   guard_accepts_only_admin_token.2.2.2.2 "k" "admin" 5 "bob" 10 (by decide)⟩

/-- C7: the credential validator succeeds iff both submitted values equal
the configured administrator identity and secret byte-for-byte; on success
it issues a token whose subject is the submitted identity and whose expiry
is now + 24 hours, and any mismatch yields the same single Unauthorized
error. -/
theorem login_validator_exact_match_token :
    (∀ admin password secret now u pw,
        login_for_access_token admin password secret now u pw = .error () ↔
          (u ≠ admin ∨ pw ≠ password))
    ∧ (∀ admin password secret now,
        login_for_access_token admin password secret now admin password
          = .ok (.signed ⟨some admin, some (now + 24 * 60 * 60)⟩ secret)) := by
  constructor
  · intro admin password secret now u pw
    by_cases h : u ≠ admin ∨ pw ≠ password
    · simp [login_for_access_token, h]
    · simp [login_for_access_token, h]
  · intro admin password secret now
    have h : ¬(admin ≠ admin ∨ password ≠ password) := by tauto
    simp [login_for_access_token, h, create_access_token,
      ACCESS_TOKEN_EXPIRE_MINUTES]

/-! ### Claim theorems: template store -/

theorem findTemplate_append (db l₂ : List TemplateRec) (tid : String)
    (h : findTemplate db tid = none) :
    findTemplate (db ++ l₂) tid = findTemplate l₂ tid := by
  induction db with
  | nil => rfl
  | cons r rest ih =>
    simp only [findTemplate] at h
    cases hr : (r.id == tid) with
    | true => rw [if_pos hr] at h; exact absurd h (by simp)
    | false =>
      rw [if_neg (ne_true_of_false hr)] at h
      simp only [List.cons_append, findTemplate]
      rw [if_neg (ne_true_of_false hr)]
      exact ih h

theorem updateFirst_append (db : List TemplateRec) (tid n c : String)
    (x : TemplateRec) (h : findTemplate db tid = none) (hx : x.id = tid) :
    updateFirst tid n c (db ++ [x])
      = db ++ [{ x with name := n, content := c }] := by
  induction db with
  | nil =>
    simp only [List.nil_append, updateFirst]
    rw [if_pos (by simp [hx])]
  | cons r rest ih =>
    simp only [findTemplate] at h
    cases hr : (r.id == tid) with
    | true => rw [if_pos hr] at h; exact absurd h (by simp)
    | false =>
      rw [if_neg (ne_true_of_false hr)] at h
      simp only [List.cons_append, updateFirst]
      rw [if_neg (ne_true_of_false hr)]
      simp only [List.append_eq]
      rw [ih h]

theorem updateFirst_id_map (tid n c : String) : ∀ db : List TemplateRec,
    (updateFirst tid n c db).map (fun r => r.id)
      = db.map (fun r => r.id) := by
  intro db
  induction db with
  | nil => rfl
  | cons r rest ih =>
    by_cases hr : (r.id == tid) = true
    · simp [updateFirst, hr]
    · simp [updateFirst, hr, ih]

theorem findTemplate_eq_none (db : List TemplateRec) (tid : String)
    (h : ∀ x ∈ db, x.id ≠ tid) : findTemplate db tid = none := by
  induction db with
  | nil => rfl
  | cons r rest ih =>
    simp only [findTemplate]
    rw [if_neg]
    · exact ih (fun x hx => h x (by simp [hx]))
    · simp [h r (by simp)]

theorem findTemplate_deleteFirst (tid : String) : ∀ db : List TemplateRec,
    (db.map (fun r => r.id)).Nodup →
      findTemplate (deleteFirst tid db) tid = none := by
  intro db
  induction db with
  | nil => intro _; rfl
  | cons r rest ih =>
    intro hnd
    simp only [List.map_cons, List.nodup_cons] at hnd
    obtain ⟨hnotin, hnd'⟩ := hnd
    by_cases hr : (r.id == tid) = true
    · have htid : r.id = tid := by simpa using hr
      simp only [deleteFirst]
      rw [if_pos hr]
      apply findTemplate_eq_none
      intro x hx hxe
      apply hnotin
      have hmem : x.id ∈ rest.map (fun r => r.id) :=
        List.mem_map_of_mem _ hx
      rw [hxe, ← htid] at hmem
      exact hmem
    · simp only [deleteFirst]
      rw [if_neg hr]
      simp only [findTemplate]
      rw [if_neg hr]
      exact ih hnd'

/-- C8: Update of a missing identifier fails with NotFound and leaves the
store unchanged; Update never rewrites identifiers; and Create followed by
Update of the created record followed by a lookup returns the updated name
and content under the identifier assigned at creation. -/
theorem update_not_found_and_roundtrip :
    (∀ db tid n c, findTemplate db tid = none →
        update_template db tid n c = (db, .error ()))
    ∧ (∀ db tid n c,
        ((update_template db tid n c).1).map (fun r => r.id)
          = db.map (fun r => r.id))
    ∧ (∀ db newId n c n' c', findTemplate db newId = none →
        update_template (create_template db newId n c).1 newId n' c'
          = (db ++ [⟨newId, n', c'⟩], .ok ⟨newId, n', c'⟩)
        ∧ findTemplate
            (update_template (create_template db newId n c).1 newId n' c').1
            newId = some ⟨newId, n', c'⟩) := by
  refine ⟨?_, ?_, ?_⟩
  · intro db tid n c h
    unfold update_template
    rw [h]
  · intro db tid n c
    unfold update_template
    cases hf : findTemplate db tid with
    | none => rfl
    | some r => exact updateFirst_id_map tid n c db
  · intro db newId n c n' c' h
    have hfind : findTemplate (db ++ [⟨newId, n, c⟩]) newId
        = some ⟨newId, n, c⟩ := by
      rw [findTemplate_append db [⟨newId, n, c⟩] newId h]
      simp [findTemplate]
    have hupd : updateFirst newId n' c' (db ++ [⟨newId, n, c⟩])
        = db ++ [⟨newId, n', c'⟩] :=
      updateFirst_append db newId n' c' ⟨newId, n, c⟩ h rfl
    constructor
    · show update_template (db ++ [⟨newId, n, c⟩]) newId n' c' = _
      unfold update_template
      rw [hfind, hupd]
    · show findTemplate
          (update_template (db ++ [⟨newId, n, c⟩]) newId n' c').1 newId = _
      unfold update_template
      rw [hfind]
      show findTemplate (updateFirst newId n' c' (db ++ [⟨newId, n, c⟩]))
          newId = _
      rw [hupd, findTemplate_append db [⟨newId, n', c'⟩] newId h]
      simp [findTemplate]

/-- Witness for C8 at concrete inputs: updating the empty store is NotFound,
and Create–Update–lookup on one record returns the updated fields under the
created identifier. -/
theorem update_not_found_and_roundtrip_app :
    update_template [] "t1" "n" "c" = ([], .error ())
    ∧ (update_template (create_template [] "t1" "n" "c").1 "t1" "n2" "c2"
        = ([⟨"t1", "n2", "c2"⟩], .ok ⟨"t1", "n2", "c2"⟩)
      ∧ findTemplate
          (update_template (create_template [] "t1" "n" "c").1
            "t1" "n2" "c2").1 "t1"
        = some ⟨"t1", "n2", "c2"⟩) :=
  ⟨update_not_found_and_roundtrip.1 [] "t1" "n" "c" rfl,
   update_not_found_and_roundtrip.2.2 [] "t1" "n" "c" "n2" "c2" rfl⟩

/-- C9: Delete of a missing identifier fails with NotFound and leaves the
store unchanged; Delete of an existing identifier removes its row — under
the primary-key invariant (no duplicate identifiers) a subsequent lookup of
the same identifier is NotFound — and returns the confirmation message, not
the deleted record. -/
theorem delete_not_found_and_removes :
    (∀ db tid, findTemplate db tid = none →
        delete_template db tid = (db, .error ()))
    ∧ (∀ db tid r, findTemplate db tid = some r →
        delete_template db tid = (deleteFirst tid db, .ok "Template deleted"))
    ∧ (∀ db tid, (db.map (fun r => r.id)).Nodup →
        findTemplate (deleteFirst tid db) tid = none) := by
  refine ⟨?_, ?_, ?_⟩
  · intro db tid h
    unfold delete_template
    rw [h]
  · intro db tid r h
    unfold delete_template
    rw [h]
  · intro db tid hnd
    exact findTemplate_deleteFirst tid db hnd

/-- Witness for C9 at concrete inputs: deleting from the empty store is
NotFound; deleting the only record returns the confirmation message and the
subsequent lookup is NotFound. -/
theorem delete_not_found_and_removes_app :
    delete_template [] "t1" = ([], .error ())
    ∧ delete_template [⟨"t1", "n", "c"⟩] "t1" = ([], .ok "Template deleted")
    ∧ findTemplate (deleteFirst "t1" [⟨"t1", "n", "c"⟩]) "t1" = none :=
  ⟨delete_not_found_and_removes.1 [] "t1" rfl,
   delete_not_found_and_removes.2.1 [⟨"t1", "n", "c"⟩] "t1"
      ⟨"t1", "n", "c"⟩ (by decide),
   delete_not_found_and_removes.2.2 [⟨"t1", "n", "c"⟩] "t1" (by decide)⟩
